import Mathlib

/-! Registration service (`lessons/130/go-app/main.go`).

A shallow embedding of the Go program: the password-hashing pipeline
(`generateRandomBytes`, `generateFromPassword`), the persistence step
(`saveUser`) and the HTTP handler (`createUser`), together with the pieces of
the Go libraries they call (decimal formatting, `fmt.Sprintf`, raw standard
base64).  Mutable process state (the two histograms, the response writer, the
log, the database) is threaded explicitly as a `World`; everything the program
cannot control (entropy source, key-derivation function, database outcomes,
latencies) is collected in an `Env`.
-/

namespace GoApp

/-! ## Bytes and text -/

/-- A Go `byte`. -/
abbrev Byte := Fin 256

/-- The conversion `[]byte(s)` of a Go string: its UTF-8 bytes. -/
def stringBytes (s : String) : List Byte :=
  (s.data.flatMap String.utf8EncodeChar).map (fun b => b.val)

/-- The character of a decimal digit `d < 10`. -/
def digitChar (d : Nat) : Char :=
  Char.ofNat (48 + d)

/-- Decimal formatting loop: pushes the digits of `n` in front of `acc`, least
significant first, `fuel` bounding the number of digits. -/
def decimalAux : Nat → Nat → List Char → List Char
  | 0, _, acc => acc
  | fuel + 1, n, acc =>
    if n / 10 = 0 then digitChar (n % 10) :: acc
    else decimalAux fuel (n / 10) (digitChar (n % 10) :: acc)

/-- The rendering of an unsigned integer under the verb `%d`. -/
def decimal (n : Nat) : List Char :=
  decimalAux (n + 1) n []

/-! ## `fmt.Sprintf` -/

/-- An operand of a formatting call, with the name of its Go type. -/
inductive Arg where
  | uint (goType : String) (n : Nat)
  | str (s : String)
  | err (goType : String) (msg : String)
  deriving DecidableEq, Repr

/-- The Go type name printed in diagnostics of a formatting call. -/
def Arg.typeName : Arg → List Char
  | .uint t _ => t.data
  | .str _ => "string".data
  | .err t _ => t.data

/-- The default (`%v`) rendering of an operand. -/
def Arg.value : Arg → List Char
  | .uint _ n => decimal n
  | .str s => s.data
  | .err _ m => m.data

/-- Whether verb `v` is accepted for the operand; the fragment covers `%d` and
`%v` on integers and `%s` and `%v` on strings and errors. -/
def Arg.accepts : Arg → Char → Bool
  | .uint _ _, v => v = 'd' || v = 'v'
  | .str _, v => v = 's' || v = 'v'
  | .err _ _, v => v = 's' || v = 'v'

/-- One directive `%v` applied to an operand; a verb outside the fragment is
rendered the way `fmt` reports a bad verb, `%!verb(type=value)`. -/
def fmtVerb (v : Char) (a : Arg) : List Char :=
  if a.accepts v then a.value
  else '%' :: '!' :: v :: '(' :: (a.typeName ++ '=' :: (a.value ++ [')']))

/-- The operands of `%!(EXTRA ...)`, separated by a comma and a space. -/
def extraList : List Arg → List Char
  | [] => []
  | [a] => a.typeName ++ '=' :: a.value
  | a :: b :: rest => a.typeName ++ '=' :: (a.value ++ ',' :: ' ' :: extraList (b :: rest))

/-- What `fmt` appends when operands are left over at the end of the format. -/
def extraArgs : List Arg → List Char
  | [] => []
  | a :: rest => "%!(EXTRA ".data ++ extraList (a :: rest) ++ [')']

/-- The formatting loop of `fmt.Sprintf` over the characters of the format. -/
def sprintfAux : List Char → List Arg → List Char
  | [], args => extraArgs args
  | c :: rest, args =>
    if c = '%' then
      match rest, args with
      | [], args => "%!(NOVERB)".data ++ extraArgs args
      | v :: rest', [] =>
        if v = '%' then '%' :: sprintfAux rest' []
        else '%' :: '!' :: v :: ("(MISSING)".data ++ sprintfAux rest' [])
      | v :: rest', a :: args' =>
        if v = '%' then '%' :: sprintfAux rest' (a :: args')
        else fmtVerb v a ++ sprintfAux rest' args'
    else c :: sprintfAux rest args

/-- The call `fmt.Sprintf(format, args...)`. -/
def sprintf (format : String) (args : List Arg) : String :=
  ⟨sprintfAux format.data args⟩

/-! ## Raw standard base64 (`base64.RawStdEncoding`) -/

/-- The standard base64 alphabet. -/
def encodeStd : List Char :=
  "ABCDEFGHIJKLMNOPQRSTUVWXYZabcdefghijklmnopqrstuvwxyz0123456789+/".data

/-- The alphabet character of a 6-bit value. -/
def b64Char (i : Nat) : Char :=
  encodeStd.getD (i % 64) 'A'

/-- The encoding loop of `Encoding.Encode` without padding: three bytes give
four characters, a remainder of one byte gives two and of two bytes three. -/
def b64EncodeAux : List Byte → List Char
  | [] => []
  | [a] =>
    let val := a.val * 65536
    [b64Char (val / 262144 % 64), b64Char (val / 4096 % 64)]
  | [a, b] =>
    let val := a.val * 65536 + b.val * 256
    [b64Char (val / 262144 % 64), b64Char (val / 4096 % 64), b64Char (val / 64 % 64)]
  | a :: b :: c :: rest =>
    let val := a.val * 65536 + b.val * 256 + c.val
    b64Char (val / 262144 % 64) :: b64Char (val / 4096 % 64) :: b64Char (val / 64 % 64)
      :: b64Char (val % 64) :: b64EncodeAux rest

/-- The call `base64.RawStdEncoding.EncodeToString(src)`. -/
def rawStdBase64 (src : List Byte) : String :=
  ⟨b64EncodeAux src⟩

/-! ## Data model -/

/-- A Go error value: its dynamic type and the text of `Error()`. -/
structure GoError where
  goType : String
  msg : String
  deriving DecidableEq, Repr

/-- The operand made of an error value. -/
def GoError.arg (e : GoError) : Arg :=
  .err e.goType e.msg

/-- The call `fmt.Errorf(format, args...)` (no `%w` in the formats used), which
returns `errors.New` of the formatted text. -/
def errorf (format : String) (args : List Arg) : GoError :=
  { goType := "*errors.errorString", msg := sprintf format args }

/-- The struct `params`; `memory`, `iterations`, `saltLength` and `keyLength`
are `uint32` and `parallelism` is `uint8` in the source. -/
structure params where
  memory : Nat
  iterations : Nat
  parallelism : Nat
  saltLength : Nat
  keyLength : Nat
  deriving DecidableEq, Repr

/-- The struct `user`. -/
structure user where
  Email : String
  Password : String
  deriving DecidableEq, Repr

/-- An incoming request seen through `c.BindJSON(&newUser)`: either a body that
decodes into the two string fields of `user` (an absent field decodes to the
empty string), or a body the binder rejects with an error. -/
inductive Request where
  | json (email password : String)
  | malformed (err : GoError)
  deriving DecidableEq, Repr

/-- Ghost record of an invocation, pushed on `World.calls` each time the named
function is entered. -/
inductive Call where
  | generateFromPassword (password : String) (p : params)
  | generateRandomBytes (n : Nat)
  | idKey (password salt : List Byte) (time memory threads keyLen : Nat)
  | saveUser (email hash : String)
  | httpError (error : String) (code : Nat)
  | cString (code : Nat) (text : String)
  | logFatal (msg : String)
  deriving DecidableEq, Repr

/-- How a Go call ends: it returns its values, or it panics and returns
nothing. -/
inductive Outcome (α : Type) where
  | returned (a : α)
  | panicked
  deriving DecidableEq, Repr

/-- Apply a function to the returned values, if any. -/
def Outcome.map {α β : Type} (f : α → β) : Outcome α → Outcome β
  | .returned a => .returned (f a)
  | .panicked => .panicked

/-- The mutable state of the process.  The two histograms are the lists of
their observations (elapsed nanoseconds), `status` is the status line already
sent on the response writer, `exited` the exit code once the process has
terminated, `panicked` whether a panic is unwinding the handler. -/
structure World where
  generateHashDuration : List Nat
  saveUserDuration : List Nat
  clock : Nat
  randReads : Nat
  status : Option Nat
  body : String
  logs : List String
  exited : Option Nat
  panicked : Bool
  rows : List (String × String)
  calls : List Call
  deriving DecidableEq, Repr

/-- What the program does not control: the outcome and bytes of the `k`-th read
of the entropy source, the key `argon2.IDKey` computes when it accepts its
arguments, the outcomes of the three database operations, and how long each
external operation takes. -/
structure Env where
  randErr : Nat → Option GoError
  randByte : Nat → Nat → Byte
  idKey : List Byte → List Byte → Nat → Nat → Nat → Nat → List Byte
  openErr : Option GoError
  prepareErr : Option GoError
  execErr : List (String × String) → String → String → Option GoError
  randNanos : Nat
  kdfNanos : Nat
  openNanos : Nat
  prepareNanos : Nat
  execNanos : Nat

/-- Modelled from the spec: the constant `argon2.Version` of the external
argon2 package, which is not part of the sources; it is `0x13`, printed as
`v=19` in the encoded hash. -/
def argon2Version : Nat := 0x13

/-! ## State primitives -/

/-- Record an invocation in the ghost call log. -/
def World.call (w : World) (c : Call) : World :=
  { w with calls := w.calls ++ [c] }

/-- Let `d` nanoseconds pass. -/
def World.tick (w : World) (d : Nat) : World :=
  { w with clock := w.clock + d }

/-- The call `generateHashDuration.Observe(v)`. -/
def World.observeHash (w : World) (v : Nat) : World :=
  { w with generateHashDuration := w.generateHashDuration ++ [v] }

/-- The call `saveUserDuration.Observe(v)`. -/
def World.observeSave (w : World) (v : Nat) : World :=
  { w with saveUserDuration := w.saveUserDuration ++ [v] }

/-- Send the status line unless one was sent already. -/
def World.writeHeader (w : World) (code : Nat) : World :=
  match w.status with
  | none => { w with status := some code }
  | some _ => w

/-- Append to the response body. -/
def World.write (w : World) (data : String) : World :=
  { w with body := w.body ++ data }

/-- The call `http.Error(c.Writer, error, code)`: status line, then the text and
a newline. -/
def httpError (error : String) (code : Nat) (w : World) : World :=
  ((w.call (.httpError error code)).writeHeader code).write (error ++ "\n")

/-- The call `c.String(code, text)`. -/
def cString (code : Nat) (text : String) (w : World) : World :=
  ((w.call (.cString code text)).writeHeader code).write text

/-- The calls `log.Fatal(err)` and `log.Fatalln(err)`: print the error, then
`os.Exit(1)`. -/
def logFatal (err : GoError) (w : World) : World :=
  { w.call (.logFatal err.msg) with logs := w.logs ++ [err.msg], exited := some 1 }

/-- The call `c.BindJSON(&newUser)`; `user` carries no binding tags, so a body
that decodes is accepted whatever the two strings are, and a rejected body
aborts the context with status 400. -/
def bindJSON (req : Request) (w : World) : (user × Option GoError) × World :=
  match req with
  | .json email password => (({ Email := email, Password := password }, none), w)
  | .malformed err => (({ Email := "", Password := "" }, some err), w.writeHeader 400)

/-- The call `rand.Read(b)`: on success every position of `b` is overwritten
with a byte of the source. -/
def randRead (env : Env) (b : List Byte) (w : World) : (List Byte × Option GoError) × World :=
  let w1 := { w with randReads := w.randReads + 1, clock := w.clock + env.randNanos }
  match env.randErr w.randReads with
  | some e => ((b, some e), w1)
  | none => (((List.range b.length).map (env.randByte w.randReads), none), w1)

/-- The call `argon2.IDKey(password, salt, time, memory, threads, keyLen)` of the
external argon2 package.  The package panics when `time < 1`, when
`threads < 1`, and when `keyLen` is 0 (no hash of that size can be built);
otherwise it returns the derived key. -/
def argon2IDKey (env : Env) (password salt : List Byte) (time memory threads keyLen : Nat)
    (w : World) : Outcome (List Byte) × World :=
  let w1 := w.call (.idKey password salt time memory threads keyLen)
  if time < 1 ∨ threads < 1 ∨ keyLen < 1 then (.panicked, { w1 with panicked := true })
  else (.returned (env.idKey password salt time memory threads keyLen), w1.tick env.kdfNanos)

/-! ## The program -/

/-- The function `generateRandomBytes`. -/
def generateRandomBytes (env : Env) (n : Nat) (w : World) :
    (List Byte × Option GoError) × World :=
  let w0 := w.call (.generateRandomBytes n)
  let b := List.replicate n (0 : Byte)
  match randRead env b w0 with
  | ((_, some err), w1) => (([], some (errorf "rand.Read: %v" [err.arg])), w1)
  | ((b1, none), w1) => ((b1, none), w1)

/-- Lines 106 to 109 of `generateFromPassword`: the two base64 encodings and the
`Sprintf` that builds the encoded hash from the parameters, the salt and the
derived key. -/
def encodeHash (p : params) (salt hash : List Byte) : String :=
  let b64Salt := rawStdBase64 salt
  let b64Hash := rawStdBase64 hash
  sprintf "$argon2id$v=%d$m=%d,t=%d,p=%d$%s$%s"
    [.uint "int" argon2Version, .uint "uint32" p.memory, .uint "uint32" p.iterations,
      .uint "uint8" p.parallelism, .str b64Salt, .str b64Hash]

/-- The function `generateFromPassword`; a panic of `argon2.IDKey` is not
recovered, so the function then returns nothing. -/
def generateFromPassword (env : Env) (password : String) (p : params) (w : World) :
    Outcome (String × Option GoError) × World :=
  let w0 := w.call (.generateFromPassword password p)
  let start := w0.clock
  match generateRandomBytes env p.saltLength w0 with
  | ((_, some err), w1) =>
    (.returned ("", some (errorf "generateRandomBytes: %v" [err.arg])), w1)
  | ((salt, none), w1) =>
    match argon2IDKey env (stringBytes password) salt p.iterations p.memory p.parallelism
      p.keyLength w1 with
    | (.panicked, w2) => (.panicked, w2)
    | (.returned hash, w2) =>
      let encodedHash := encodeHash p salt hash
      (.returned (encodedHash, none), w2.observeHash (w2.clock - start))

/-- The function `saveUser`. -/
def saveUser (env : Env) (email hash : String) (w : World) : Option GoError × World :=
  let w0 := w.call (.saveUser email hash)
  let start := w0.clock
  let w1 := w0.tick env.openNanos
  match env.openErr with
  | some err => (some (errorf "sql.Open: %v" [err.arg]), w1)
  | none =>
    let w2 := w1.tick env.prepareNanos
    match env.prepareErr with
    | some err => (some (errorf "db.Prepare: %v" [err.arg]), w2)
    | none =>
      let w3 := w2.tick env.execNanos
      match env.execErr w3.rows email hash with
      | some err => (some (errorf "stmt.Exec: %v" [err.arg]), w3)
      | none =>
        let w4 := { w3 with rows := w3.rows ++ [(email, hash)] }
        (none, w4.observeSave (w4.clock - start))

/-- The parameters `createUser` hashes with. -/
def createUserParams : params :=
  { memory := 64 * 1024, iterations := 3, parallelism := 2, saltLength := 16, keyLength := 32 }

/-- The handler `createUser`; each `log.Fatal` ends the process, so the handler
stops there, and a panic of a callee unwinds it. -/
def createUser (env : Env) (req : Request) (w : World) : World :=
  match bindJSON req w with
  | ((_, some err), w1) => logFatal err (httpError "failed to create user" 500 w1)
  | ((newUser, none), w1) =>
    let p := createUserParams
    match generateFromPassword env newUser.Password p w1 with
    | (.panicked, w2) => w2
    | (.returned (_, some err), w2) => logFatal err (httpError "failed to create user" 500 w2)
    | (.returned (encodedHash, none), w2) =>
      match saveUser env newUser.Email encodedHash w2 with
      | (some err, w3) => logFatal err (httpError "failed to create user" 500 w3)
      | (none, w3) => cString 201 "User created." w3

/-- The calls made between state `w` and a later state `w1`. -/
def newCalls (w w1 : World) : List Call :=
  w1.calls.drop w.calls.length

/-! ## Reading an encoded hash back -/

/-- Split a text at every occurrence of `sep` (`strings.Split` with a
one-character separator). -/
def splitOn (sep : Char) : List Char → List (List Char)
  | [] => [[]]
  | c :: cs =>
    if c = sep then [] :: splitOn sep cs
    else
      match splitOn sep cs with
      | [] => [[c]]
      | f :: fs => (c :: f) :: fs

/-- The value of a decimal digit character. -/
def digitVal? (c : Char) : Option Nat :=
  if 48 ≤ c.toNat ∧ c.toNat ≤ 57 then some (c.toNat - 48) else none

/-- Read decimal digits, most significant first, onto the accumulator. -/
def parseDecimalAux : List Char → Nat → Option Nat
  | [], acc => some acc
  | c :: cs, acc =>
    match digitVal? c with
    | none => none
    | some d => parseDecimalAux cs (acc * 10 + d)

/-- Read a non-empty run of decimal digits. -/
def parseDecimal (cs : List Char) : Option Nat :=
  if cs = [] then none else parseDecimalAux cs 0

/-- Remove a prefix that must be present. -/
def stripPrefix (pre cs : List Char) : Option (List Char) :=
  if pre.isPrefixOf cs then some (cs.drop pre.length) else none

/-- The 6-bit value of an alphabet character. -/
def b64Val? (c : Char) : Option Nat :=
  if encodeStd.indexOf c < 64 then some (encodeStd.indexOf c) else none

/-- The byte with value `n` modulo 256. -/
def byteOf (n : Nat) : Byte :=
  ⟨n % 256, Nat.mod_lt _ (by decide)⟩

/-- Decoding of unpadded base64: four characters give three bytes, a remainder
of two characters gives one byte and of three characters two; a remainder of
one character is malformed. -/
def b64DecodeAux : List Char → Option (List Byte)
  | [] => some []
  | [_] => none
  | [c0, c1] =>
    match b64Val? c0, b64Val? c1 with
    | some v0, some v1 =>
      let val := v0 * 262144 + v1 * 4096
      some [byteOf (val / 65536)]
    | _, _ => none
  | [c0, c1, c2] =>
    match b64Val? c0, b64Val? c1, b64Val? c2 with
    | some v0, some v1, some v2 =>
      let val := v0 * 262144 + v1 * 4096 + v2 * 64
      some [byteOf (val / 65536), byteOf (val / 256)]
    | _, _, _ => none
  | c0 :: c1 :: c2 :: c3 :: rest =>
    match b64Val? c0, b64Val? c1, b64Val? c2, b64Val? c3, b64DecodeAux rest with
    | some v0, some v1, some v2, some v3, some bs =>
      let val := v0 * 262144 + v1 * 4096 + v2 * 64 + v3
      some (byteOf (val / 65536) :: byteOf (val / 256) :: byteOf val :: bs)
    | _, _, _, _, _ => none

/-- What an encoded hash carries. -/
structure Decoded where
  version : Nat
  cost : params
  salt : List Byte
  key : List Byte
  deriving DecidableEq, Repr

/-- A cost field `name=<decimal>`. -/
def parseField (name cs : List Char) : Option Nat :=
  match stripPrefix name cs with
  | none => none
  | some ds => parseDecimal ds

/-- Modelled from the spec: the `decode` of the encoded-hash formatter, which
the repository does not implement.  It splits the text at `$`, checks the
field count and the algorithm tag, reads the version and the three cost
fields as decimals and the last two fields as unpadded base64; the two
lengths are those of the decoded salt and key. -/
def decodeHash (s : String) : Option Decoded :=
  match splitOn '$' s.data with
  | [lead, alg, ver, costs, salt, key] =>
    if lead = [] ∧ alg = "argon2id".data then
      match splitOn ',' costs with
      | [m, t, par] =>
        match parseField "v=".data ver, parseField "m=".data m, parseField "t=".data t,
          parseField "p=".data par, b64DecodeAux salt, b64DecodeAux key with
        | some v, some m, some t, some par, some salt, some key =>
          some { version := v,
                 cost := { memory := m, iterations := t, parallelism := par,
                             saltLength := salt.length, keyLength := key.length },
                 salt := salt, key := key }
        | _, _, _, _, _, _ => none
      | _ => none
    else none
  | _ => none

/-- The characters the standard alphabet is made of: `A`-`Z`, `a`-`z`, `0`-`9`,
`+` and `/`. -/
def isStdBase64Char (c : Char) : Bool :=
  (65 ≤ c.toNat && c.toNat ≤ 90) || (97 ≤ c.toNat && c.toNat ≤ 122) ||
    (48 ≤ c.toNat && c.toNat ≤ 57) || c = '+' || c = '/'

/-- The cost field `m=<memory>,t=<iterations>,p=<parallelism>`. -/
def costField (p : params) : List Char :=
  "m=".data ++ decimal p.memory ++ ',' :: ("t=".data ++ decimal p.iterations ++
    ',' :: ("p=".data ++ decimal p.parallelism))

/-- Whether a logged call is an invocation of `saveUser`. -/
def Call.isSaveUser : Call → Bool
  | .saveUser _ _ => true
  | _ => false

/-- Whether a logged call is an invocation of `generateFromPassword`. -/
def Call.isGenerateFromPassword : Call → Bool
  | .generateFromPassword _ _ => true
  | _ => false

/-- Whether a logged call is an invocation of `argon2.IDKey`. -/
def Call.isIDKey : Call → Bool
  | .idKey _ _ _ _ _ _ => true
  | _ => false

/-- The rendering of an unsigned integer as a string. -/
def decimalString (n : Nat) : String :=
  ⟨decimal n⟩

/-! ## Sample environments -/

/-- An environment in which every external operation succeeds. -/
def sampleEnv : Env where
  randErr := fun _ => none
  randByte := fun k i => byteOf (7 * i + k)
  idKey := fun pw salt t m par n =>
    (List.range n).map (fun i => byteOf (i + pw.length + salt.length + t + m + par))
  openErr := none
  prepareErr := none
  execErr := fun _ _ _ => none
  randNanos := 1
  kdfNanos := 50
  openNanos := 2
  prepareNanos := 3
  execNanos := 4

/-- An environment whose entropy source cannot be read. -/
def noEntropyEnv : Env :=
  { sampleEnv with randErr := fun _ => some { goType := "*fs.PathError", msg := "EIO" } }

/-- The state of a freshly started process handling its first request. -/
def freshWorld : World where
  generateHashDuration := []
  saveUserDuration := []
  clock := 0
  randReads := 0
  status := none
  body := ""
  logs := []
  exited := none
  panicked := false
  rows := []
  calls := []

/-! ## Decimal rendering -/

theorem digitVal_digitChar (d : Nat) (h : d < 10) : digitVal? (digitChar d) = some d := by
  interval_cases d <;> rfl

theorem digitChar_range (d : Nat) (h : d < 10) :
    48 ≤ (digitChar d).toNat ∧ (digitChar d).toNat ≤ 57 := by
  interval_cases d <;> decide

theorem decimalAux_acc (fuel : Nat) : ∀ (n : Nat) (acc : List Char),
    decimalAux fuel n acc = decimalAux fuel n [] ++ acc := by
  induction fuel with
  | zero => intro n acc; simp [decimalAux]
  | succ f ih =>
    intro n acc
    unfold decimalAux
    by_cases h : n / 10 = 0
    · simp [h]
    · simp only [h, if_false]
      rw [ih (n / 10) (digitChar (n % 10) :: acc), ih (n / 10) [digitChar (n % 10)]]
      simp

theorem decimalAux_fuel (fuel : Nat) : ∀ (n fuel1 : Nat), n < fuel → n < fuel1 →
    decimalAux fuel n [] = decimalAux fuel1 n [] := by
  induction fuel with
  | zero => intro n fuel1 h; omega
  | succ f ih =>
    intro n fuel1 h h1
    cases fuel1 with
    | zero => omega
    | succ f1 =>
      unfold decimalAux
      by_cases hz : n / 10 = 0
      · simp [hz]
      · simp only [hz, if_false]
        rw [decimalAux_acc f, decimalAux_acc f1]
        rw [ih (n / 10) f1 (by omega) (by omega)]

theorem decimal_small (n : Nat) (h : n < 10) : decimal n = [digitChar n] := by
  unfold decimal decimalAux
  have hz : n / 10 = 0 := by omega
  have hm : n % 10 = n := by omega
  simp [hz, hm]

theorem decimal_step (n : Nat) (h : 10 ≤ n) :
    decimal n = decimal (n / 10) ++ [digitChar (n % 10)] := by
  unfold decimal
  conv_lhs => unfold decimalAux
  have hz : ¬ n / 10 = 0 := by omega
  simp only [hz, if_false]
  rw [decimalAux_acc n]
  rw [decimalAux_fuel n (n / 10) (n / 10 + 1) (by omega) (by omega)]

theorem decimal_ne_nil (n : Nat) : decimal n ≠ [] := by
  by_cases h : n < 10
  · simp [decimal_small n h]
  · rw [decimal_step n (by omega)]; simp

theorem decimal_digits (n : Nat) : ∀ c ∈ decimal n, 48 ≤ c.toNat ∧ c.toNat ≤ 57 := by
  induction n using Nat.strong_induction_on with
  | _ n ih =>
    intro c hc
    by_cases h : n < 10
    · rw [decimal_small n h] at hc
      simp only [List.mem_singleton] at hc
      subst hc
      exact digitChar_range n h
    · rw [decimal_step n (by omega)] at hc
      rcases List.mem_append.mp hc with hc | hc
      · exact ih (n / 10) (by omega) c hc
      · simp only [List.mem_singleton] at hc
        subst hc
        exact digitChar_range (n % 10) (by omega)

theorem parseDecimalAux_append (xs : List Char) (c : Char) : ∀ acc : Nat,
    parseDecimalAux (xs ++ [c]) acc =
      match parseDecimalAux xs acc, digitVal? c with
      | some v, some d => some (v * 10 + d)
      | _, _ => none := by
  induction xs with
  | nil =>
    intro acc
    simp only [List.nil_append, parseDecimalAux]
    cases digitVal? c <;> rfl
  | cons x xs ih =>
    intro acc
    simp only [List.cons_append, parseDecimalAux]
    cases hx : digitVal? x with
    | none => simp
    | some d => exact ih (acc * 10 + d)

theorem parseDecimalAux_decimal (n : Nat) : parseDecimalAux (decimal n) 0 = some n := by
  induction n using Nat.strong_induction_on with
  | _ n ih =>
    by_cases h : n < 10
    · rw [decimal_small n h]
      simp [parseDecimalAux, digitVal_digitChar n h]
    · rw [decimal_step n (by omega), parseDecimalAux_append, ih (n / 10) (by omega),
        digitVal_digitChar (n % 10) (by omega)]
      simp only [Option.some.injEq]
      omega

theorem parseDecimal_decimal (n : Nat) : parseDecimal (decimal n) = some n := by
  unfold parseDecimal
  rw [if_neg (decimal_ne_nil n)]
  exact parseDecimalAux_decimal n

/-! ## Base64 -/

theorem b64Val_b64Char (i : Nat) (h : i < 64) : b64Val? (b64Char i) = some i := by
  interval_cases i <;> rfl

theorem b64Char_std (i : Nat) : isStdBase64Char (b64Char i) = true := by
  have h : i % 64 < 64 := Nat.mod_lt _ (by decide)
  unfold b64Char
  generalize i % 64 = j at h
  interval_cases j <;> rfl

theorem b64EncodeAux_std : ∀ (bs : List Byte), ∀ c ∈ b64EncodeAux bs, isStdBase64Char c = true
  | [] => by simp [b64EncodeAux]
  | [a] => by
    intro c hc
    simp only [b64EncodeAux, List.mem_cons, List.mem_singleton, List.not_mem_nil, or_false] at hc
    rcases hc with rfl | rfl <;> exact b64Char_std _
  | [a, b] => by
    intro c hc
    simp only [b64EncodeAux, List.mem_cons, List.mem_singleton, List.not_mem_nil, or_false] at hc
    rcases hc with rfl | rfl | rfl <;> exact b64Char_std _
  | a :: b :: c :: rest => by
    intro x hx
    simp only [b64EncodeAux, List.mem_cons] at hx
    rcases hx with rfl | rfl | rfl | rfl | hx
    · exact b64Char_std _
    · exact b64Char_std _
    · exact b64Char_std _
    · exact b64Char_std _
    · exact b64EncodeAux_std rest x hx

theorem b64EncodeAux_length : ∀ (bs : List Byte),
    (b64EncodeAux bs).length = (4 * bs.length + 2) / 3
  | [] => by simp [b64EncodeAux]
  | [a] => by simp [b64EncodeAux]
  | [a, b] => by simp [b64EncodeAux]
  | a :: b :: c :: rest => by
    simp only [b64EncodeAux, List.length_cons, b64EncodeAux_length rest]
    omega

theorem b64Decode_encode : ∀ (bs : List Byte), b64DecodeAux (b64EncodeAux bs) = some bs
  | [] => by simp [b64EncodeAux, b64DecodeAux]
  | [a] => by
    have ha := a.isLt
    simp only [b64EncodeAux, b64DecodeAux, b64Val_b64Char _ (Nat.mod_lt _ (by decide : 0 < 64))]
    simp only [Option.some.injEq, List.cons.injEq, and_true]
    apply Fin.ext
    simp only [byteOf]
    omega
  | [a, b] => by
    have ha := a.isLt
    have hb := b.isLt
    simp only [b64EncodeAux, b64DecodeAux, b64Val_b64Char _ (Nat.mod_lt _ (by decide : 0 < 64))]
    simp only [Option.some.injEq, List.cons.injEq, and_true]
    refine ⟨Fin.ext ?_, Fin.ext ?_⟩ <;> simp only [byteOf] <;> omega
  | a :: b :: c :: rest => by
    have ha := a.isLt
    have hb := b.isLt
    have hc := c.isLt
    simp only [b64EncodeAux, b64DecodeAux, b64Val_b64Char _ (Nat.mod_lt _ (by decide : 0 < 64)),
      b64Decode_encode rest]
    simp only [Option.some.injEq, List.cons.injEq, and_true]
    refine ⟨Fin.ext ?_, Fin.ext ?_, Fin.ext ?_⟩ <;> simp only [byteOf] <;> omega

/-! ## Splitting -/

theorem splitOn_of_not_mem (sep : Char) : ∀ (a : List Char), sep ∉ a → splitOn sep a = [a]
  | [], _ => rfl
  | c :: cs, h => by
    have hc : c ≠ sep := fun e => h (by simp [e])
    have hcs : sep ∉ cs := fun e => h (List.mem_cons_of_mem _ e)
    simp [splitOn, hc, splitOn_of_not_mem sep cs hcs]

theorem splitOn_append_sep (sep : Char) (b : List Char) : ∀ (a : List Char), sep ∉ a →
    splitOn sep (a ++ sep :: b) = a :: splitOn sep b
  | [], _ => by simp [splitOn]
  | c :: cs, h => by
    have hc : c ≠ sep := fun e => h (by simp [e])
    have hcs : sep ∉ cs := fun e => h (List.mem_cons_of_mem _ e)
    simp [splitOn, hc, splitOn_append_sep sep b cs hcs]

theorem stripPrefix_append (pre rest : List Char) : stripPrefix pre (pre ++ rest) = some rest := by
  simp [stripPrefix]

theorem parseField_decimal (name : List Char) (n : Nat) :
    parseField name (name ++ decimal n) = some n := by
  simp [parseField, stripPrefix_append, parseDecimal_decimal]

theorem std_ne_sep (c : Char) (h : isStdBase64Char c = true) : c ≠ '$' ∧ c ≠ ',' ∧ c ≠ '=' := by
  refine ⟨?_, ?_, ?_⟩ <;> (rintro rfl; revert h; decide)

theorem digit_ne_sep (c : Char) (h : 48 ≤ c.toNat ∧ c.toNat ≤ 57) : c ≠ '$' ∧ c ≠ ',' := by
  refine ⟨?_, ?_⟩ <;> (rintro rfl; revert h; decide)

theorem dollar_not_mem_b64 (bs : List Byte) : '$' ∉ b64EncodeAux bs :=
  fun h => (std_ne_sep _ (b64EncodeAux_std bs _ h)).1 rfl

theorem dollar_not_mem_decimal (n : Nat) : '$' ∉ decimal n :=
  fun h => (digit_ne_sep _ (decimal_digits n _ h)).1 rfl

theorem comma_not_mem_decimal (n : Nat) : ',' ∉ decimal n :=
  fun h => (digit_ne_sep _ (decimal_digits n _ h)).2 rfl

theorem encodeHash_data (p : params) (salt hash : List Byte) :
    (encodeHash p salt hash).data =
      [] ++ '$' :: ("argon2id".data ++ '$' :: (("v=".data ++ decimal argon2Version) ++
        '$' :: (costField p ++ '$' :: (b64EncodeAux salt ++ '$' :: b64EncodeAux hash)))) := by
  simp [encodeHash, sprintf, sprintfAux, fmtVerb, Arg.accepts, Arg.value, extraArgs,
    rawStdBase64, costField]

theorem dollar_not_mem_costField (p : params) : '$' ∉ costField p := by
  intro h
  simp only [costField, List.mem_append, List.mem_cons] at h
  have h1 := dollar_not_mem_decimal p.memory
  have h2 := dollar_not_mem_decimal p.iterations
  have h3 := dollar_not_mem_decimal p.parallelism
  have e1 : '$' ∉ "m=".data := by decide
  have e2 : '$' ∉ "t=".data := by decide
  have e3 : '$' ∉ "p=".data := by decide
  have e4 : ¬ ('$' = ',') := by decide
  tauto

theorem splitOn_encodeHash (p : params) (salt hash : List Byte) :
    splitOn '$' (encodeHash p salt hash).data =
      [[], "argon2id".data, "v=".data ++ decimal argon2Version, costField p,
        b64EncodeAux salt, b64EncodeAux hash] := by
  have hv : '$' ∉ "v=".data ++ decimal argon2Version := by
    intro h
    rcases List.mem_append.mp h with h | h
    · revert h; decide
    · exact dollar_not_mem_decimal _ h
  rw [encodeHash_data,
    splitOn_append_sep '$' _ [] (by simp),
    splitOn_append_sep '$' _ "argon2id".data (by decide),
    splitOn_append_sep '$' _ _ hv,
    splitOn_append_sep '$' _ _ (dollar_not_mem_costField p),
    splitOn_append_sep '$' _ _ (dollar_not_mem_b64 salt),
    splitOn_of_not_mem '$' _ (dollar_not_mem_b64 hash)]

theorem splitOn_costField (p : params) :
    splitOn ',' (costField p) =
      ["m=".data ++ decimal p.memory, "t=".data ++ decimal p.iterations,
        "p=".data ++ decimal p.parallelism] := by
  have h (name : List Char) (hn : ',' ∉ name) (n : Nat) : ',' ∉ name ++ decimal n := by
    intro h
    rcases List.mem_append.mp h with h | h
    · exact hn h
    · exact comma_not_mem_decimal _ h
  unfold costField
  rw [splitOn_append_sep ',' _ _ (h _ (by decide) _),
    splitOn_append_sep ',' _ _ (h _ (by decide) _),
    splitOn_of_not_mem ',' _ (h _ (by decide) _)]

theorem decodeHash_encodeHash (p : params) (salt hash : List Byte) :
    decodeHash (encodeHash p salt hash) =
      some { version := argon2Version,
             cost := { memory := p.memory, iterations := p.iterations,
                         parallelism := p.parallelism, saltLength := salt.length,
                         keyLength := hash.length },
             salt := salt, key := hash } := by
  unfold decodeHash
  rw [splitOn_encodeHash]
  simp only [true_and, if_true, splitOn_costField, parseField_decimal, b64Decode_encode]

/-! ## The program, case by case -/

theorem randRead_call (env : Env) (b : List Byte) (w : World) (c : Call) :
    (randRead env b (w.call c)).1 = (randRead env b w).1 := by
  simp only [randRead, World.call]
  cases env.randErr w.randReads <;> rfl

theorem randRead_err_iff (env : Env) (b : List Byte) (w : World) :
    (randRead env b w).1.2 = env.randErr w.randReads := by
  simp only [randRead]
  cases env.randErr w.randReads <;> rfl

theorem generateRandomBytes_ok (env : Env) (n : Nat) (w : World)
    (h : env.randErr w.randReads = none) :
    generateRandomBytes env n w =
      (((List.range n).map (env.randByte w.randReads), none),
        { w.call (.generateRandomBytes n) with
          randReads := w.randReads + 1, clock := w.clock + env.randNanos }) := by
  simp [generateRandomBytes, randRead, World.call, h]

theorem generateRandomBytes_err (env : Env) (n : Nat) (w : World) (e : GoError)
    (h : env.randErr w.randReads = some e) :
    generateRandomBytes env n w =
      (([], some (errorf "rand.Read: %v" [e.arg])),
        { w.call (.generateRandomBytes n) with
          randReads := w.randReads + 1, clock := w.clock + env.randNanos }) := by
  simp [generateRandomBytes, randRead, World.call, h]

/-- The parameters `argon2.IDKey` accepts. -/
theorem argon2IDKey_accepts (env : Env) (password salt : List Byte)
    (time memory threads keyLen : Nat) (w : World)
    (ht : 1 ≤ time) (hp : 1 ≤ threads) (hk : 1 ≤ keyLen) :
    argon2IDKey env password salt time memory threads keyLen w =
      (.returned (env.idKey password salt time memory threads keyLen),
        (w.call (.idKey password salt time memory threads keyLen)).tick env.kdfNanos) := by
  have hn : ¬ (time < 1 ∨ threads < 1 ∨ keyLen < 1) := by omega
  simp only [argon2IDKey, hn, if_false]

/-- The parameters `argon2.IDKey` rejects. -/
theorem argon2IDKey_rejects (env : Env) (password salt : List Byte)
    (time memory threads keyLen : Nat) (w : World)
    (h : time < 1 ∨ threads < 1 ∨ keyLen < 1) :
    argon2IDKey env password salt time memory threads keyLen w =
      (.panicked,
        { w.call (.idKey password salt time memory threads keyLen) with panicked := true }) := by
  simp only [argon2IDKey, h, if_true]

theorem generateFromPassword_ok (env : Env) (password : String) (p : params) (w : World)
    (h : env.randErr w.randReads = none)
    (hi : 1 ≤ p.iterations) (hp : 1 ≤ p.parallelism) (hk : 1 ≤ p.keyLength) :
    generateFromPassword env password p w =
      (.returned (encodeHash p ((List.range p.saltLength).map (env.randByte w.randReads))
          (env.idKey (stringBytes password)
            ((List.range p.saltLength).map (env.randByte w.randReads))
            p.iterations p.memory p.parallelism p.keyLength), none),
        { w with
          calls := w.calls ++ [.generateFromPassword password p,
            .generateRandomBytes p.saltLength,
            .idKey (stringBytes password)
              ((List.range p.saltLength).map (env.randByte w.randReads))
              p.iterations p.memory p.parallelism p.keyLength]
          randReads := w.randReads + 1
          clock := w.clock + env.randNanos + env.kdfNanos
          generateHashDuration := w.generateHashDuration ++
            [w.clock + env.randNanos + env.kdfNanos - w.clock] }) := by
  have h1 : env.randErr (w.call (.generateFromPassword password p)).randReads = none := h
  simp only [generateFromPassword, generateRandomBytes_ok _ _ _ h1,
    argon2IDKey_accepts _ _ _ _ _ _ _ _ hi hp hk]
  simp [World.call, World.tick, World.observeHash]

theorem generateFromPassword_panic (env : Env) (password : String) (p : params) (w : World)
    (h : env.randErr w.randReads = none)
    (hbad : p.iterations < 1 ∨ p.parallelism < 1 ∨ p.keyLength < 1) :
    generateFromPassword env password p w =
      (.panicked,
        { w with
          calls := w.calls ++ [.generateFromPassword password p,
            .generateRandomBytes p.saltLength,
            .idKey (stringBytes password)
              ((List.range p.saltLength).map (env.randByte w.randReads))
              p.iterations p.memory p.parallelism p.keyLength]
          randReads := w.randReads + 1
          clock := w.clock + env.randNanos
          panicked := true }) := by
  have h1 : env.randErr (w.call (.generateFromPassword password p)).randReads = none := h
  simp only [generateFromPassword, generateRandomBytes_ok _ _ _ h1,
    argon2IDKey_rejects _ _ _ _ _ _ _ _ hbad]
  simp [World.call]

theorem generateFromPassword_err (env : Env) (password : String) (p : params) (w : World)
    (e : GoError) (h : env.randErr w.randReads = some e) :
    generateFromPassword env password p w =
      (.returned ("", some (errorf "generateRandomBytes: %v"
          [(errorf "rand.Read: %v" [e.arg]).arg])),
        { w with
          calls := w.calls ++ [.generateFromPassword password p,
            .generateRandomBytes p.saltLength]
          randReads := w.randReads + 1
          clock := w.clock + env.randNanos }) := by
  have h1 : env.randErr (w.call (.generateFromPassword password p)).randReads = some e := h
  simp only [generateFromPassword, generateRandomBytes_err _ _ _ e h1]
  simp [World.call]

theorem randRead_success (env : Env) (b s : List Byte) (w : World)
    (h : (randRead env b w).1 = (s, none)) :
    env.randErr w.randReads = none ∧ s = (List.range b.length).map (env.randByte w.randReads) := by
  simp only [randRead] at h
  cases hr : env.randErr w.randReads with
  | none =>
    rw [hr] at h
    simp only [Prod.mk.injEq, and_true] at h
    exact ⟨rfl, h.symm⟩
  | some e =>
    rw [hr] at h
    simp at h

theorem newCalls_append (w w1 : World) (cs : List Call) (h : w1.calls = w.calls ++ cs) :
    newCalls w w1 = cs := by
  simp [newCalls, h]

theorem encodeHash_eq (p : params) (salt hash : List Byte) :
    encodeHash p salt hash =
      "$argon2id$v=" ++ decimalString argon2Version ++ "$m=" ++ decimalString p.memory ++
        ",t=" ++ decimalString p.iterations ++ ",p=" ++ decimalString p.parallelism ++ "$" ++
        rawStdBase64 salt ++ "$" ++ rawStdBase64 hash := by
  apply String.ext
  rw [encodeHash_data]
  simp [String.data_append, decimalString, rawStdBase64, costField]

theorem writeHeader_calls (w : World) (code : Nat) : (w.writeHeader code).calls = w.calls := by
  unfold World.writeHeader
  cases w.status <;> rfl

theorem writeHeader_body (w : World) (code : Nat) : (w.writeHeader code).body = w.body := by
  unfold World.writeHeader
  cases w.status <;> rfl

theorem httpError_calls (error : String) (code : Nat) (w : World) :
    (httpError error code w).calls = w.calls ++ [.httpError error code] := by
  simp [httpError, World.write, writeHeader_calls, World.call]

theorem httpError_body (error : String) (code : Nat) (w : World) :
    (httpError error code w).body = w.body ++ (error ++ "\n") := by
  simp [httpError, World.write, writeHeader_body, World.call]

theorem cString_calls (code : Nat) (text : String) (w : World) :
    (cString code text w).calls = w.calls ++ [.cString code text] := by
  simp [cString, World.write, writeHeader_calls, World.call]

theorem cString_body (code : Nat) (text : String) (w : World) :
    (cString code text w).body = w.body ++ text := by
  simp [cString, World.write, writeHeader_body, World.call]

theorem logFatal_calls (err : GoError) (w : World) :
    (logFatal err w).calls = w.calls ++ [.logFatal err.msg] := rfl

theorem logFatal_body (err : GoError) (w : World) : (logFatal err w).body = w.body := rfl

theorem saveUser_calls (env : Env) (email hash : String) (w : World) :
    (saveUser env email hash w).2.calls = w.calls ++ [.saveUser email hash] := by
  simp only [saveUser]
  cases env.openErr with
  | some e => rfl
  | none =>
    cases env.prepareErr with
    | some e => rfl
    | none =>
      simp only []
      split <;> rfl

theorem saveUser_body (env : Env) (email hash : String) (w : World) :
    (saveUser env email hash w).2.body = w.body := by
  simp only [saveUser]
  cases env.openErr with
  | some e => rfl
  | none =>
    cases env.prepareErr with
    | some e => rfl
    | none =>
      simp only []
      split <;> rfl

/-- The calls and the response body of a run of `createUser`, by outcome. -/
theorem createUser_trace (env : Env) (req : Request) (w : World) :
    (∃ err, req = .malformed err ∧
      newCalls w (createUser env req w) =
        [.httpError "failed to create user" 500, .logFatal err.msg] ∧
      (createUser env req w).body = w.body ++ "failed to create user\n") ∨
    (∃ email password err, req = .json email password ∧
      (generateFromPassword env password createUserParams w).1 = .returned ("", some err) ∧
      newCalls w (createUser env req w) =
        [.generateFromPassword password createUserParams,
          .generateRandomBytes createUserParams.saltLength,
          .httpError "failed to create user" 500, .logFatal err.msg] ∧
      (createUser env req w).body = w.body ++ "failed to create user\n") ∨
    (∃ email password hash w2 salt err, req = .json email password ∧
      generateFromPassword env password createUserParams w = (.returned (hash, none), w2) ∧
      (saveUser env email hash w2).1 = some err ∧
      newCalls w (createUser env req w) =
        [.generateFromPassword password createUserParams,
          .generateRandomBytes createUserParams.saltLength,
          .idKey (stringBytes password) salt createUserParams.iterations
            createUserParams.memory createUserParams.parallelism createUserParams.keyLength,
          .saveUser email hash,
          .httpError "failed to create user" 500, .logFatal err.msg] ∧
      (createUser env req w).body = w.body ++ "failed to create user\n") ∨
    (∃ email password hash w2 salt, req = .json email password ∧
      generateFromPassword env password createUserParams w = (.returned (hash, none), w2) ∧
      (saveUser env email hash w2).1 = none ∧
      newCalls w (createUser env req w) =
        [.generateFromPassword password createUserParams,
          .generateRandomBytes createUserParams.saltLength,
          .idKey (stringBytes password) salt createUserParams.iterations
            createUserParams.memory createUserParams.parallelism createUserParams.keyLength,
          .saveUser email hash,
          .cString 201 "User created."] ∧
      (createUser env req w).body = w.body ++ "User created.") := by
  cases req with
  | malformed err =>
    left
    refine ⟨err, rfl, ?_, ?_⟩
    · apply newCalls_append
      simp [createUser, bindJSON, logFatal_calls, httpError_calls, writeHeader_calls]
    · simp [createUser, bindJSON, logFatal_body, httpError_body, writeHeader_body]
  | json email password =>
    right
    cases hr : env.randErr w.randReads with
    | some e =>
      left
      have hg := generateFromPassword_err env password createUserParams w e hr
      refine ⟨email, password, _, rfl, by rw [hg], ?_, ?_⟩
      · apply newCalls_append
        simp [createUser, bindJSON, hg, logFatal_calls, httpError_calls]
      · simp [createUser, bindJSON, hg, logFatal_body, httpError_body]
    | none =>
      right
      have hg := generateFromPassword_ok env password createUserParams w hr (by decide)
        (by decide) (by decide)
      generalize hw2 : (generateFromPassword env password createUserParams w).2 = w2 at hg
      have hc2 : w2.calls = w.calls ++ [.generateFromPassword password createUserParams,
          .generateRandomBytes createUserParams.saltLength,
          .idKey (stringBytes password)
            ((List.range createUserParams.saltLength).map (env.randByte w.randReads))
            createUserParams.iterations createUserParams.memory createUserParams.parallelism
            createUserParams.keyLength] := by
        rw [← hw2, hg]
      have hb2 : w2.body = w.body := by rw [← hw2, hg]
      generalize hh : encodeHash createUserParams
          ((List.range createUserParams.saltLength).map (env.randByte w.randReads))
          (env.idKey (stringBytes password)
            ((List.range createUserParams.saltLength).map (env.randByte w.randReads))
            createUserParams.iterations createUserParams.memory createUserParams.parallelism
            createUserParams.keyLength) = hash at hg
      have hg2 : generateFromPassword env password createUserParams w =
          (.returned (hash, none), w2) := by
        rw [← hw2, hg]
      have hsc := saveUser_calls env email hash w2
      have hsb := saveUser_body env email hash w2
      cases hsv : saveUser env email hash w2 with
      | mk r w3 =>
        rw [hsv] at hsc hsb
        simp only at hsc hsb
        cases r with
        | some err =>
          left
          refine ⟨email, password, hash, w2,
            ((List.range createUserParams.saltLength).map (env.randByte w.randReads)),
            err, rfl, hg2, by rw [hsv], ?_, ?_⟩
          · apply newCalls_append
            simp [createUser, bindJSON, hg2, hsv, logFatal_calls, httpError_calls, hsc, hc2]
          · simp [createUser, bindJSON, hg2, hsv, logFatal_body, httpError_body, hsb, hb2]
        | none =>
          right
          refine ⟨email, password, hash, w2,
            ((List.range createUserParams.saltLength).map (env.randByte w.randReads)),
            rfl, hg2, by rw [hsv], ?_, ?_⟩
          · apply newCalls_append
            simp [createUser, bindJSON, hg2, hsv, cString_calls, hsc, hc2]
          · simp [createUser, bindJSON, hg2, hsv, cString_body, hsb, hb2]

theorem decimal_isDigit (n : Nat) : ∀ c ∈ decimal n, c.isDigit = true := by
  intro c hc
  have h := decimal_digits n c hc
  simp only [Char.isDigit, Bool.and_eq_true, decide_eq_true_eq, ge_iff_le, UInt32.le_def,
    Fin.le_def]
  exact h

theorem ceil_four_thirds (n : Nat) : (4 * n + 2) / 3 = ⌈(4 * (n : ℚ)) / 3⌉₊ := by
  apply le_antisymm
  · by_contra hlt
    push_neg at hlt
    have h1 : ⌈(4 * (n : ℚ)) / 3⌉₊ ≤ (4 * n + 2) / 3 - 1 := by omega
    have h2 : (4 * (n : ℚ)) / 3 ≤ (((4 * n + 2) / 3 - 1 : ℕ) : ℚ) := Nat.ceil_le.mp h1
    have h3 : 4 * (n : ℚ) ≤ 3 * (((4 * n + 2) / 3 - 1 : ℕ) : ℚ) := by linarith
    have h4 : 4 * n ≤ 3 * ((4 * n + 2) / 3 - 1) := by exact_mod_cast h3
    omega
  · apply Nat.ceil_le.mpr
    have h4 : 4 * n ≤ 3 * ((4 * n + 2) / 3) := by omega
    have h3 : 4 * (n : ℚ) ≤ 3 * (((4 * n + 2) / 3 : ℕ) : ℚ) := by exact_mod_cast h4
    linarith

/-! ## The claims -/

/-- C1, as the code has it: for parameters that `argon2.IDKey` accepts
(`iterations`, `parallelism` and `keyLength` at least 1), whenever `rand.Read`
succeeds on the fresh salt buffer and leaves the salt `s` in it,
`generateFromPassword` returns a nil error and exactly the text
`$argon2id$v=<version>$m=<memory>,t=<iterations>,p=<parallelism>$` followed by
the unpadded base64 of `s`, `$`, and the unpadded base64 of
`argon2.IDKey(password, s, iterations, memory, parallelism, keyLength)`; the
result is therefore the same for any two runs with the same password,
parameters, salt and key-derivation function. -/
theorem generateFromPassword_encoded_string (env : Env) (password : String) (p : params)
    (w : World) (s : List Byte)
    (hi : 1 ≤ p.iterations) (hp : 1 ≤ p.parallelism) (hk : 1 ≤ p.keyLength)
    (hs : (randRead env (List.replicate p.saltLength 0) w).1 = (s, none)) :
    (generateFromPassword env password p w).1 =
      .returned ("$argon2id$v=" ++ decimalString argon2Version ++ "$m=" ++
        decimalString p.memory ++ ",t=" ++ decimalString p.iterations ++ ",p=" ++
        decimalString p.parallelism ++ "$" ++ rawStdBase64 s ++ "$" ++
        rawStdBase64 (env.idKey (stringBytes password) s p.iterations p.memory p.parallelism
          p.keyLength), none) ∧
    ∀ (env1 : Env) (w1 : World), env1.idKey = env.idKey →
      (randRead env1 (List.replicate p.saltLength 0) w1).1 = (s, none) →
      (generateFromPassword env1 password p w1).1 = (generateFromPassword env password p w).1 := by
  obtain ⟨hr, hsalt⟩ := randRead_success env _ s w hs
  simp only [List.length_replicate] at hsalt
  have key : ∀ (e : Env) (v : World), e.randErr v.randReads = none →
      s = (List.range p.saltLength).map (e.randByte v.randReads) →
      (generateFromPassword e password p v).1 =
        .returned (encodeHash p s (e.idKey (stringBytes password) s p.iterations p.memory
          p.parallelism p.keyLength), none) := by
    intro e v he hv
    rw [generateFromPassword_ok e password p v he hi hp hk, ← hv]
  refine ⟨?_, ?_⟩
  · rw [key env w hr hsalt, encodeHash_eq]
  · intro env1 w1 hid hs1
    obtain ⟨hr1, hsalt1⟩ := randRead_success env1 _ s w1 hs1
    simp only [List.length_replicate] at hsalt1
    rw [key env w hr hsalt, key env1 w1 hr1 hsalt1, hid]

/-- Witness of the amended C1 at the sample environment, for the parameters of
`createUser`. -/
theorem generateFromPassword_encoded_string_witness :
    (generateFromPassword sampleEnv "correct horse" createUserParams freshWorld).1 =
      .returned ("$argon2id$v=19$m=65536,t=3,p=2$AAcOFRwjKjE4P0ZNVFtiaQ$" ++
        "IiMkJSYnKCkqKywtLi8wMTIzNDU2Nzg5Ojs8PT4/QEE", none) := by
  have h := (generateFromPassword_encoded_string sampleEnv "correct horse" createUserParams
    freshWorld ((List.range 16).map (fun i => byteOf (7 * i))) (by decide) (by decide)
    (by decide) (by decide)).1
  rw [h]
  decide

/-- C1 fails on the code: with `iterations` 0 the entropy read succeeds and
yields a salt, `argon2.IDKey` is called with it and panics, and
`generateFromPassword` returns neither an error nor an encoded hash. -/
theorem generateFromPassword_zero_iterations_panics :
    (randRead sampleEnv (List.replicate 16 0) freshWorld).1 =
      ([0, 7, 14, 21, 28, 35, 42, 49, 56, 63, 70, 77, 84, 91, 98, 105], none) ∧
    (generateFromPassword sampleEnv "correct horse"
      { memory := 65536, iterations := 0, parallelism := 2, saltLength := 16, keyLength := 32 }
      freshWorld).1 = Outcome.panicked ∧
    (newCalls freshWorld (generateFromPassword sampleEnv "correct horse"
      { memory := 65536, iterations := 0, parallelism := 2, saltLength := 16, keyLength := 32 }
      freshWorld).2).filter Call.isIDKey =
      [.idKey (stringBytes "correct horse")
        [0, 7, 14, 21, 28, 35, 42, 49, 56, 63, 70, 77, 84, 91, 98, 105] 0 65536 2 32] := by
  decide

/-- C2: the encoded-hash format is uniquely decodable: one decoder returns, for
every parameters, every salt of `saltLength` bytes and every key of
`keyLength` bytes, exactly the parameters, the salt and the key that the
`Sprintf` of `generateFromPassword` was given; and two encoded hashes are
equal only if memory, iterations, parallelism, salt and key all are. -/
theorem encodeHash_uniquely_decodable :
    (∃ decode : String → Option (params × List Byte × List Byte),
      ∀ (p : params) (salt key : List Byte), salt.length = p.saltLength →
        key.length = p.keyLength → decode (encodeHash p salt key) = some (p, salt, key)) ∧
    ∀ (p q : params) (salt salt1 key key1 : List Byte),
      encodeHash p salt key = encodeHash q salt1 key1 →
      p.memory = q.memory ∧ p.iterations = q.iterations ∧ p.parallelism = q.parallelism ∧
        salt = salt1 ∧ key = key1 := by
  refine ⟨⟨fun s => (decodeHash s).map (fun d => (d.cost, d.salt, d.key)), ?_⟩, ?_⟩
  · intro p salt key hs hk
    beta_reduce
    rw [decodeHash_encodeHash, hs, hk]
    rfl
  · intro p q salt salt1 key key1 h
    have hd := congrArg decodeHash h
    rw [decodeHash_encodeHash, decodeHash_encodeHash] at hd
    simp only [Option.some.injEq, Decoded.mk.injEq, params.mk.injEq, true_and] at hd
    exact ⟨hd.1.1, hd.1.2.1, hd.1.2.2.1, hd.2.1, hd.2.2⟩

/-- Witness of C2 at the parameters of `createUser`. -/
theorem encodeHash_uniquely_decodable_witness :
    ∃ decode : String → Option (params × List Byte × List Byte),
      decode (encodeHash createUserParams (List.replicate 16 7) (List.replicate 32 9)) =
        some (createUserParams, List.replicate 16 7, List.replicate 32 9) :=
  match encodeHash_uniquely_decodable.1 with
  | ⟨decode, h⟩ => ⟨decode, h createUserParams _ _ rfl rfl⟩

/-- C3: when the key-derivation function returns as many bytes as it is asked
for, a successful result of `generateFromPassword` splits at `$` into exactly
six fields: an empty one, `argon2id`, `v=19`, the cost field
`m=<decimal>,t=<decimal>,p=<decimal>`, a salt segment and a key segment; the
two segments consist of characters of the standard base64 alphabet, without
`=`, and have `⌈4 * saltLength / 3⌉` and `⌈4 * keyLength / 3⌉` characters.  For
the parameters of `createUser` the result is `$argon2id$v=19$m=65536,t=3,p=2$`,
22 base64 characters, `$`, and 43 base64 characters. -/
theorem generateFromPassword_fields (env : Env) (password : String) (p : params) (w : World)
    (hash : String)
    (hok : (generateFromPassword env password p w).1 = .returned (hash, none))
    (hkdf : ∀ (pw s : List Byte) (t m par n : Nat), (env.idKey pw s t m par n).length = n) :
    ∃ saltSeg keySeg : List Char,
      splitOn '$' hash.data =
        [[], "argon2id".data, "v=19".data,
          "m=".data ++ decimal p.memory ++ ",t=".data ++ decimal p.iterations ++
            ",p=".data ++ decimal p.parallelism,
          saltSeg, keySeg] ∧
      (∀ n : Nat, decimal n ≠ [] ∧ ∀ c ∈ decimal n, c.isDigit = true) ∧
      (∀ c ∈ saltSeg, isStdBase64Char c = true) ∧
      (∀ c ∈ keySeg, isStdBase64Char c = true) ∧
      '=' ∉ saltSeg ∧ '=' ∉ keySeg ∧
      saltSeg.length = ⌈(4 * (p.saltLength : ℚ)) / 3⌉₊ ∧
      keySeg.length = ⌈(4 * (p.keyLength : ℚ)) / 3⌉₊ ∧
      (p = createUserParams →
        hash = "$argon2id$v=19$m=65536,t=3,p=2$" ++ String.mk saltSeg ++ "$" ++
          String.mk keySeg ∧
        saltSeg.length = 22 ∧ keySeg.length = 43) := by
  cases hr : env.randErr w.randReads with
  | some e =>
    rw [generateFromPassword_err env password p w e hr] at hok
    simp at hok
  | none =>
    by_cases hbad : p.iterations < 1 ∨ p.parallelism < 1 ∨ p.keyLength < 1
    · rw [generateFromPassword_panic env password p w hr hbad] at hok
      simp at hok
    · rw [generateFromPassword_ok env password p w hr (by omega) (by omega) (by omega)] at hok
      generalize hsalt : (List.range p.saltLength).map (env.randByte w.randReads) = salt at hok
      have hsl : salt.length = p.saltLength := by rw [← hsalt]; simp
      generalize hkey : env.idKey (stringBytes password) salt p.iterations p.memory
        p.parallelism p.keyLength = key at hok
      have hkl : key.length = p.keyLength := by rw [← hkey]; exact hkdf _ _ _ _ _ _
      have hh : hash = encodeHash p salt key := by
        simp only [Outcome.returned.injEq, Prod.mk.injEq, and_true] at hok
        exact hok.symm
      subst hh
      have hlen1 : (b64EncodeAux salt).length = ⌈(4 * (p.saltLength : ℚ)) / 3⌉₊ := by
        rw [b64EncodeAux_length, hsl, ceil_four_thirds]
      have hlen2 : (b64EncodeAux key).length = ⌈(4 * (p.keyLength : ℚ)) / 3⌉₊ := by
        rw [b64EncodeAux_length, hkl, ceil_four_thirds]
      refine ⟨b64EncodeAux salt, b64EncodeAux key, ?_, ?_, b64EncodeAux_std salt,
        b64EncodeAux_std key, ?_, ?_, hlen1, hlen2, ?_⟩
      · rw [splitOn_encodeHash]
        have hv : "v=".data ++ decimal argon2Version = "v=19".data := by decide
        rw [hv]
        simp [costField]
      · exact fun n => ⟨decimal_ne_nil n, decimal_isDigit n⟩
      · exact fun h => (std_ne_sep _ (b64EncodeAux_std salt _ h)).2.2 rfl
      · exact fun h => (std_ne_sep _ (b64EncodeAux_std key _ h)).2.2 rfl
      · intro hp
        subst hp
        refine ⟨?_, ?_, ?_⟩
        · rw [encodeHash_eq]
          have h1 : decimalString argon2Version = "19" := by decide
          have h2 : decimalString createUserParams.memory = "65536" := by decide
          have h3 : decimalString createUserParams.iterations = "3" := by decide
          have h4 : decimalString createUserParams.parallelism = "2" := by decide
          rw [h1, h2, h3, h4]
          apply String.ext
          simp [String.data_append, rawStdBase64]
        · rw [b64EncodeAux_length, hsl]; rfl
        · rw [b64EncodeAux_length, hkl]; rfl

/-- Witness of C3 at the sample environment, whose key-derivation function
returns `keyLen` bytes. -/
theorem generateFromPassword_fields_witness :
    ∃ saltSeg keySeg : List Char,
      "$argon2id$v=19$m=65536,t=3,p=2$AAcOFRwjKjE4P0ZNVFtiaQ$IiMkJSYnKCkqKywtLi8wMTIzNDU2Nzg5Ojs8PT4/QEE" =
        "$argon2id$v=19$m=65536,t=3,p=2$" ++ String.mk saltSeg ++ "$" ++ String.mk keySeg ∧
      saltSeg.length = 22 ∧ keySeg.length = 43 :=
  match generateFromPassword_fields sampleEnv "correct horse" createUserParams freshWorld
    "$argon2id$v=19$m=65536,t=3,p=2$AAcOFRwjKjE4P0ZNVFtiaQ$IiMkJSYnKCkqKywtLi8wMTIzNDU2Nzg5Ojs8PT4/QEE"
    (by decide) (fun _ _ _ _ _ n => by simp [sampleEnv]) with
  | ⟨saltSeg, keySeg, h⟩ => ⟨saltSeg, keySeg, h.2.2.2.2.2.2.2.2 rfl⟩

/-- C4: when the entropy read succeeds, `generateRandomBytes n` returns exactly
`n` bytes and a nil error; hence the salt that `generateFromPassword` hands to
the key-derivation function has exactly `p.saltLength` bytes, and it is the
salt encoded in whatever `generateFromPassword` returns, which is the encoded
hash with a nil error whenever `argon2.IDKey` accepts the parameters. -/
theorem generateRandomBytes_length (env : Env) (w : World)
    (h : env.randErr w.randReads = none) :
    (∀ n : Nat, ∃ b : List Byte, (generateRandomBytes env n w).1 = (b, none) ∧ b.length = n) ∧
    ∀ (password : String) (p : params), ∃ salt : List Byte,
      salt.length = p.saltLength ∧
      (newCalls w (generateFromPassword env password p w).2).filter Call.isIDKey =
        [.idKey (stringBytes password) salt p.iterations p.memory p.parallelism p.keyLength] ∧
      (∀ r : String × Option GoError, (generateFromPassword env password p w).1 = .returned r →
        r = (encodeHash p salt (env.idKey (stringBytes password) salt p.iterations p.memory
          p.parallelism p.keyLength), none)) ∧
      (1 ≤ p.iterations ∧ 1 ≤ p.parallelism ∧ 1 ≤ p.keyLength →
        (generateFromPassword env password p w).1 =
          .returned (encodeHash p salt (env.idKey (stringBytes password) salt p.iterations
            p.memory p.parallelism p.keyLength), none)) := by
  refine ⟨?_, ?_⟩
  · intro n
    refine ⟨(List.range n).map (env.randByte w.randReads), ?_, by simp⟩
    rw [generateRandomBytes_ok env n w h]
  · intro password p
    refine ⟨(List.range p.saltLength).map (env.randByte w.randReads), by simp, ?_, ?_, ?_⟩
    · by_cases hbad : p.iterations < 1 ∨ p.parallelism < 1 ∨ p.keyLength < 1
      · rw [newCalls_append w _ _ (by rw [generateFromPassword_panic env password p w h hbad])]
        simp [Call.isIDKey]
      · rw [newCalls_append w _ _ (by rw [generateFromPassword_ok env password p w h
          (by omega) (by omega) (by omega)])]
        simp [Call.isIDKey]
    · intro r hr
      by_cases hbad : p.iterations < 1 ∨ p.parallelism < 1 ∨ p.keyLength < 1
      · rw [generateFromPassword_panic env password p w h hbad] at hr
        simp at hr
      · rw [generateFromPassword_ok env password p w h (by omega) (by omega) (by omega)] at hr
        simp only [Outcome.returned.injEq] at hr
        exact hr.symm
    · rintro ⟨hi, hp, hk⟩
      rw [generateFromPassword_ok env password p w h hi hp hk]

/-- Witness of C4 at the sample environment. -/
theorem generateRandomBytes_length_witness :
    sampleEnv.randErr freshWorld.randReads = none ∧
    ∃ b : List Byte, (generateRandomBytes sampleEnv 16 freshWorld).1 = (b, none) ∧
      b.length = 16 :=
  ⟨rfl, (generateRandomBytes_length sampleEnv freshWorld rfl).1 16⟩

/-- C5: `generateRandomBytes` returns a non-nil error exactly when `rand.Read`
fails, and then returns no bytes; `generateFromPassword` returns a non-nil
error exactly when its call of `generateRandomBytes` does, and then returns the
empty string without having invoked the key-derivation function. -/
theorem errors_iff_entropy_failure (env : Env) (n : Nat) (password : String) (p : params)
    (w : World) :
    ((generateRandomBytes env n w).1.2 ≠ none ↔
      (randRead env (List.replicate n 0) (w.call (.generateRandomBytes n))).1.2 ≠ none) ∧
    ((generateRandomBytes env n w).1.2 ≠ none → (generateRandomBytes env n w).1.1 = []) ∧
    ((∃ (hash : String) (e : GoError),
        (generateFromPassword env password p w).1 = .returned (hash, some e)) ↔
      (generateRandomBytes env p.saltLength
        (w.call (.generateFromPassword password p))).1.2 ≠ none) ∧
    (∀ (hash : String) (e : GoError),
      (generateFromPassword env password p w).1 = .returned (hash, some e) →
      hash = "" ∧
      (newCalls w (generateFromPassword env password p w).2).filter Call.isIDKey = []) := by
  have hw : (w.call (.generateFromPassword password p)).randReads = w.randReads := rfl
  have hw1 : (w.call (.generateRandomBytes n)).randReads = w.randReads := rfl
  rw [randRead_err_iff, hw1]
  cases hr : env.randErr w.randReads with
  | none =>
    rw [generateRandomBytes_ok env n w hr, generateRandomBytes_ok env _ _ (hw ▸ hr)]
    by_cases hbad : p.iterations < 1 ∨ p.parallelism < 1 ∨ p.keyLength < 1
    · rw [generateFromPassword_panic env password p w hr hbad]
      simp
    · rw [generateFromPassword_ok env password p w hr (by omega) (by omega) (by omega)]
      simp
  | some e =>
    rw [generateRandomBytes_err env n w e hr, generateFromPassword_err env password p w e hr,
      generateRandomBytes_err env _ _ e (hw ▸ hr)]
    refine ⟨by simp, by simp, by simp, fun hash e1 hret => ⟨?_, ?_⟩⟩
    · simp only [Outcome.returned.injEq, Prod.mk.injEq] at hret
      exact hret.1.symm
    · rw [newCalls_append w _ [.generateFromPassword password p,
        .generateRandomBytes p.saltLength] rfl]
      rfl

/-- Witness of C5 where the entropy source cannot be read. -/
theorem errors_iff_entropy_failure_witness :
    ∃ (hash : String) (e : GoError),
      (generateFromPassword noEntropyEnv "correct horse" createUserParams freshWorld).1 =
        .returned (hash, some e) :=
  (errors_iff_entropy_failure noEntropyEnv 16 "correct horse" createUserParams freshWorld).2.2.1.2
    (by decide)

/-- C6: a call of `generateFromPassword` that returns a nil error appends
exactly one observation to the hashing-duration histogram, a call that returns
an error, or does not return, appends none, and none touches the
persistence-duration histogram. -/
theorem generateFromPassword_histograms (env : Env) (password : String) (p : params)
    (w : World) :
    ((∃ hash : String, (generateFromPassword env password p w).1 = .returned (hash, none)) →
      ∃ v : Nat, (generateFromPassword env password p w).2.generateHashDuration =
        w.generateHashDuration ++ [v]) ∧
    ((∃ (hash : String) (e : GoError),
        (generateFromPassword env password p w).1 = .returned (hash, some e)) →
      (generateFromPassword env password p w).2.generateHashDuration =
        w.generateHashDuration) ∧
    ((generateFromPassword env password p w).1 = .panicked →
      (generateFromPassword env password p w).2.generateHashDuration =
        w.generateHashDuration) ∧
    (generateFromPassword env password p w).2.saveUserDuration = w.saveUserDuration := by
  cases hr : env.randErr w.randReads with
  | none =>
    by_cases hbad : p.iterations < 1 ∨ p.parallelism < 1 ∨ p.keyLength < 1
    · rw [generateFromPassword_panic env password p w hr hbad]
      exact ⟨fun h => by simp at h, fun _ => rfl, fun _ => rfl, rfl⟩
    · rw [generateFromPassword_ok env password p w hr (by omega) (by omega) (by omega)]
      exact ⟨fun _ => ⟨_, rfl⟩, fun h => by simp at h, fun h => by simp at h, rfl⟩
  | some e =>
    rw [generateFromPassword_err env password p w e hr]
    exact ⟨fun h => by simp at h, fun _ => rfl, fun _ => rfl, rfl⟩

/-- Witness of C6: one observation after a successful hashing. -/
theorem generateFromPassword_histograms_witness :
    ∃ v : Nat, (generateFromPassword sampleEnv "correct horse" createUserParams
      freshWorld).2.generateHashDuration = freshWorld.generateHashDuration ++ [v] :=
  (generateFromPassword_histograms sampleEnv "correct horse" createUserParams freshWorld).1
    ⟨"$argon2id$v=19$m=65536,t=3,p=2$AAcOFRwjKjE4P0ZNVFtiaQ$IiMkJSYnKCkqKywtLi8wMTIzNDU2Nzg5Ojs8PT4/QEE",
      by decide⟩

/-- C7: `saveUser` returns nil and appends exactly one observation to the
persistence-duration histogram when opening the database, preparing the
statement and executing the insert all succeed; when one of the three fails
it returns a non-nil error and appends no observation; the hashing-duration
histogram is never touched. -/
theorem saveUser_histograms (env : Env) (email hash : String) (w : World) :
    ((env.openErr = none ∧ env.prepareErr = none ∧ env.execErr w.rows email hash = none) →
      (saveUser env email hash w).1 = none ∧
      ∃ v : Nat, (saveUser env email hash w).2.saveUserDuration = w.saveUserDuration ++ [v]) ∧
    ((env.openErr ≠ none ∨ env.prepareErr ≠ none ∨ env.execErr w.rows email hash ≠ none) →
      (saveUser env email hash w).1 ≠ none ∧
      (saveUser env email hash w).2.saveUserDuration = w.saveUserDuration) ∧
    (saveUser env email hash w).2.generateHashDuration = w.generateHashDuration := by
  have hrows : ((((w.call (.saveUser email hash)).tick env.openNanos).tick
      env.prepareNanos).tick env.execNanos).rows = w.rows := rfl
  simp only [saveUser, hrows]
  cases ho : env.openErr with
  | some e => simp [World.tick, World.call]
  | none =>
    cases hp : env.prepareErr with
    | some e => simp [World.tick, World.call]
    | none =>
      cases hx : env.execErr w.rows email hash with
      | some e => simp [World.tick, World.call]
      | none => simp [World.tick, World.call, World.observeSave]

/-- Witness of C7: one observation after a successful insert. -/
theorem saveUser_histograms_witness :
    (saveUser sampleEnv "a@example.com" "hash" freshWorld).1 = none ∧
    ∃ v : Nat, (saveUser sampleEnv "a@example.com" "hash" freshWorld).2.saveUserDuration =
      freshWorld.saveUserDuration ++ [v] :=
  (saveUser_histograms sampleEnv "a@example.com" "hash" freshWorld).1 ⟨rfl, rfl, rfl⟩

/-- C9: the error returned by `generateFromPassword` is determined by the
outcome of the entropy read alone: two runs with the same parameters and the
same outcome end alike, returning the same error value (or both not
returning), whatever the passwords, the salts and the key-derivation functions
are; and every run of `createUser` that does not write the success response
writes the constant text `failed to create user` and nothing else. -/
theorem errors_do_not_depend_on_password (env env1 : Env) (password password1 : String)
    (p : params) (w w1 : World) (h : env.randErr w.randReads = env1.randErr w1.randReads) :
    (generateFromPassword env password p w).1.map Prod.snd =
      (generateFromPassword env1 password1 p w1).1.map Prod.snd ∧
    ∀ req : Request, Call.cString 201 "User created." ∉ newCalls w (createUser env req w) →
      (createUser env req w).body = w.body ++ "failed to create user\n" ∧
      ∀ (error : String) (code : Nat),
        Call.httpError error code ∈ newCalls w (createUser env req w) →
        error = "failed to create user" := by
  refine ⟨?_, ?_⟩
  · cases hr : env.randErr w.randReads with
    | none =>
      by_cases hbad : p.iterations < 1 ∨ p.parallelism < 1 ∨ p.keyLength < 1
      · rw [generateFromPassword_panic env password p w hr hbad,
          generateFromPassword_panic env1 password1 p w1 (h ▸ hr) hbad]
      · rw [generateFromPassword_ok env password p w hr (by omega) (by omega) (by omega),
          generateFromPassword_ok env1 password1 p w1 (h ▸ hr) (by omega) (by omega)
            (by omega)]
        rfl
    | some e =>
      rw [generateFromPassword_err env password p w e hr,
        generateFromPassword_err env1 password1 p w1 e (h ▸ hr)]
  · intro req hno
    rcases createUser_trace env req w with
      ⟨err, rfl, hc, hb⟩ | ⟨email, password, err, rfl, hg, hc, hb⟩ |
      ⟨email, password, hash, w2, salt, err, rfl, hg, hsv, hc, hb⟩ |
      ⟨email, password, hash, w2, salt, rfl, hg, hsv, hc, hb⟩
    · refine ⟨hb, ?_⟩
      rw [hc]
      intro error code hm
      simp at hm
      exact hm.1
    · refine ⟨hb, ?_⟩
      rw [hc]
      intro error code hm
      simp at hm
      exact hm.1
    · refine ⟨hb, ?_⟩
      rw [hc]
      intro error code hm
      simp at hm
      exact hm.1
    · rw [hc] at hno
      simp at hno

/-- Witness of C9: two different passwords, two different key-derivation
functions, the same failure of the entropy source. -/
theorem errors_do_not_depend_on_password_witness :
    (generateFromPassword noEntropyEnv "correct horse" createUserParams freshWorld).1.map
        Prod.snd =
      (generateFromPassword { noEntropyEnv with idKey := fun _ _ _ _ _ _ => [] } "hunter2"
        createUserParams freshWorld).1.map Prod.snd :=
  (errors_do_not_depend_on_password noEntropyEnv
    { noEntropyEnv with idKey := fun _ _ _ _ _ _ => [] } "correct horse" "hunter2"
    createUserParams freshWorld freshWorld rfl).1

/-- C10, as the code has it: `createUser` rejects only a request that fails to
bind, and then it writes the failure response without invoking
`generateFromPassword` or `saveUser`; every request that binds, whatever its
email and password, has its password hashed, and is handed to `saveUser` when
hashing succeeds. -/
theorem createUser_rejects_only_unbound (env : Env) (req : Request) (w : World) :
    ((bindJSON req w).1.2 ≠ none →
      Call.httpError "failed to create user" 500 ∈ newCalls w (createUser env req w) ∧
      (newCalls w (createUser env req w)).filter Call.isGenerateFromPassword = [] ∧
      (newCalls w (createUser env req w)).filter Call.isSaveUser = []) ∧
    (∀ email password : String, req = .json email password →
      Call.generateFromPassword password createUserParams ∈
        newCalls w (createUser env req w) ∧
      ∀ hash : String,
        (generateFromPassword env password createUserParams w).1 = .returned (hash, none) →
        Call.saveUser email hash ∈ newCalls w (createUser env req w)) := by
  rcases createUser_trace env req w with
    ⟨err, rfl, hc, -⟩ | ⟨email, password, err, rfl, hg, hc, -⟩ |
    ⟨email, password, hash, w2, salt, err, rfl, hg, hsv, hc, -⟩ |
    ⟨email, password, hash, w2, salt, rfl, hg, hsv, hc, -⟩
  · rw [hc]
    refine ⟨fun _ => by simp [Call.isSaveUser, Call.isGenerateFromPassword], ?_⟩
    intro email password h
    simp at h
  · rw [hc]
    refine ⟨fun h => by simp [bindJSON] at h, ?_⟩
    intro email1 password1 h
    simp only [Request.json.injEq] at h
    obtain ⟨rfl, rfl⟩ := h
    refine ⟨by simp, fun hash1 h => ?_⟩
    rw [hg] at h
    simp at h
  · rw [hc]
    refine ⟨fun h => by simp [bindJSON] at h, ?_⟩
    intro email1 password1 h
    simp only [Request.json.injEq] at h
    obtain ⟨rfl, rfl⟩ := h
    refine ⟨by simp, fun hash1 h => ?_⟩
    rw [hg] at h
    simp only [Outcome.returned.injEq, Prod.mk.injEq, and_true] at h
    subst h
    simp
  · rw [hc]
    refine ⟨fun h => by simp [bindJSON] at h, ?_⟩
    intro email1 password1 h
    simp only [Request.json.injEq] at h
    obtain ⟨rfl, rfl⟩ := h
    refine ⟨by simp, fun hash1 h => ?_⟩
    rw [hg] at h
    simp only [Outcome.returned.injEq, Prod.mk.injEq, and_true] at h
    subst h
    simp

/-- Witness of the amended C10: an unbound request stops before any hashing. -/
theorem createUser_rejects_only_unbound_witness :
    (newCalls freshWorld (createUser sampleEnv
      (.malformed { goType := "*json.SyntaxError", msg := "unexpected end of JSON input" })
      freshWorld)).filter Call.isGenerateFromPassword = [] :=
  ((createUser_rejects_only_unbound sampleEnv
    (.malformed { goType := "*json.SyntaxError", msg := "unexpected end of JSON input" })
    freshWorld).1 (by decide)).2.1

/-- C10 fails on the code: a request whose email and password are both empty
binds, is hashed, is handed to `saveUser` and is answered with the success
response; no failure is reported. -/
theorem createUser_empty_fields_accepted :
    newCalls freshWorld (createUser sampleEnv (.json "" "") freshWorld) =
      [.generateFromPassword "" createUserParams,
        .generateRandomBytes 16,
        .idKey [] [0, 7, 14, 21, 28, 35, 42, 49, 56, 63, 70, 77, 84, 91, 98, 105] 3 65536 2 32,
        .saveUser ""
          "$argon2id$v=19$m=65536,t=3,p=2$AAcOFRwjKjE4P0ZNVFtiaQ$FRYXGBkaGxwdHh8gISIjJCUmJygpKissLS4vMDEyMzQ",
        .cString 201 "User created."] ∧
    (createUser sampleEnv (.json "" "") freshWorld).status = some 201 ∧
    (createUser sampleEnv (.json "" "") freshWorld).body = "User created." ∧
    (createUser sampleEnv (.json "" "") freshWorld).exited = none ∧
    (createUser sampleEnv (.json "" "") freshWorld).rows =
      [("", "$argon2id$v=19$m=65536,t=3,p=2$AAcOFRwjKjE4P0ZNVFtiaQ$FRYXGBkaGxwdHh8gISIjJCUmJygpKissLS4vMDEyMzQ")] := by
  decide

end GoApp
